import Mathlib

/-!
Verification development for the hotel reservation system
(`Act6.2/reservation_system.py`): a persistent record store managing three
keyed collections (hotels, customers, reservations) backed by whole-file
JSON snapshots.

The embedding models each JSON object (Python `dict`) as an insertion-ordered
association list from string keys to record values, exactly mirroring dict
semantics: lookup finds the (unique) entry with the given key, assignment
replaces in place or appends, `del` removes the entry.  Every public
operation of the source is translated as a pure function from the combined
system state (the three collections, i.e. the contents of the three files)
to a boolean result paired with the successor state; the load/save calls of
the source become the implicit threading of that state.  File-level effects
of the `DataManager` helper (missing file, unparsable JSON, write failure)
are modelled by an explicit outcome parameter.
-/

set_option autoImplicit false

namespace ReservationSystem

/-- A keyed collection, as loaded from one JSON snapshot: an
insertion-ordered association list from string keys to records. -/
abbrev Coll (α : Type) : Type := List (String × α)

/-- Dict lookup: value at key `k`, or `none` when absent. -/
def lookupKey {α : Type} (k : String) : Coll α → Option α
  | [] => none
  | p :: rest => if p.1 = k then some p.2 else lookupKey k rest

/-- Dict membership test (`k in data` in the source). -/
def hasKey {α : Type} (k : String) (c : Coll α) : Bool :=
  (lookupKey k c).isSome

/-- Dict assignment `data[k] = v`: replace the entry in place when the key
is present, append a new entry otherwise. -/
def setKey {α : Type} (k : String) (v : α) (c : Coll α) : Coll α :=
  if hasKey k c then c.map (fun p => if p.1 = k then (p.1, v) else p)
  else c ++ [(k, v)]

/-- Dict deletion `del data[k]`: drop every entry with key `k` (there is at
most one in a well-formed dict). -/
def eraseKey {α : Type} (k : String) (c : Coll α) : Coll α :=
  c.filter (fun p => if p.1 = k then false else true)

/-- In-place mutation of the record stored at key `k`
(`data[k]["field"] = ...` in the source). -/
def updateKey {α : Type} (k : String) (f : α → α) (c : Coll α) : Coll α :=
  c.map (fun p => if p.1 = k then (p.1, f p.2) else p)

/-- A hotel record, the value stored under a hotel id in `hotels.json`
(`Hotel.to_dict`).  Python integers are modelled as `Int`. -/
structure HotelRec where
  name : String
  location : String
  total_rooms : Int
  available_rooms : Int
deriving DecidableEq, Repr

/-- A customer record, the value stored under a customer id in
`customers.json` (`Customer.to_dict`). -/
structure CustomerRec where
  name : String
  email : String
deriving DecidableEq, Repr

/-- A reservation record, the value stored under a reservation id in
`reservations.json`. -/
structure ReservationRec where
  customer_id : String
  hotel_id : String
deriving DecidableEq, Repr

/-- The combined persistent state of the system: the contents of the three
snapshot files. -/
structure SysState where
  hotels : Coll HotelRec
  customers : Coll CustomerRec
  reservations : Coll ReservationRec
deriving DecidableEq, Repr

/-- Python truthiness of an optional-string argument (`if name:`):
falsy exactly when the argument is `None` or the empty string. -/
def truthy : Option String → Bool
  | none => false
  | some st => if st = "" then false else true

/-- Embeds `Hotel.create_hotel(hotel_id, name, location, rooms)`: fails when the id
is already a key; otherwise inserts a record with
`available_rooms = total_rooms = rooms`.  The room count argument is a
non-negative integer per the data model. -/
def create_hotel (hotel_id nm loc : String) (rooms : Nat) (s : SysState) :
    Bool × SysState :=
  if hasKey hotel_id s.hotels then (false, s)
  else
    (true,
      ⟨setKey hotel_id ⟨nm, loc, (rooms : Int), (rooms : Int)⟩ s.hotels,
        s.customers, s.reservations⟩)

/-- Embeds `Hotel.delete_hotel(hotel_id)`: removes the record unconditionally when
present (no check of outstanding reservations), fails otherwise. -/
def delete_hotel (hotel_id : String) (s : SysState) : Bool × SysState :=
  if hasKey hotel_id s.hotels then
    (true, ⟨eraseKey hotel_id s.hotels, s.customers, s.reservations⟩)
  else (false, s)

/-- Embeds `Hotel.modify_hotel(hotel_id, name=None, location=None)`: when the id is
present, overwrites each field whose argument is truthy (non-`None` and
non-empty) and reports success; fails when the id is absent. -/
def modify_hotel (hotel_id : String) (nm loc : Option String) (s : SysState) :
    Bool × SysState :=
  if hasKey hotel_id s.hotels then
    (true,
      ⟨updateKey hotel_id
          (fun h =>
            ⟨if truthy nm then nm.getD h.name else h.name,
              if truthy loc then loc.getD h.location else h.location,
              h.total_rooms, h.available_rooms⟩)
          s.hotels,
        s.customers, s.reservations⟩)
  else (false, s)

/-- Embeds `Customer.create_customer(customer_id, name, email)`. -/
def create_customer (customer_id nm em : String) (s : SysState) :
    Bool × SysState :=
  if hasKey customer_id s.customers then (false, s)
  else
    (true,
      ⟨s.hotels, setKey customer_id ⟨nm, em⟩ s.customers, s.reservations⟩)

/-- Embeds `Customer.delete_customer(customer_id)`. -/
def delete_customer (customer_id : String) (s : SysState) : Bool × SysState :=
  if hasKey customer_id s.customers then
    (true, ⟨s.hotels, eraseKey customer_id s.customers, s.reservations⟩)
  else (false, s)

/-- Embeds `Customer.modify_customer(customer_id, name=None, email=None)`: same
truthiness-guarded field update as `modify_hotel`. -/
def modify_customer (customer_id : String) (nm em : Option String)
    (s : SysState) : Bool × SysState :=
  if hasKey customer_id s.customers then
    (true,
      ⟨s.hotels,
        updateKey customer_id
          (fun c =>
            ⟨if truthy nm then nm.getD c.name else c.name,
              if truthy em then em.getD c.email else c.email⟩)
          s.customers,
        s.reservations⟩)
  else (false, s)

/-- The in-place decrement `hotel_data[hid]["available_rooms"] -= 1`. -/
def decRooms (h : HotelRec) : HotelRec :=
  ⟨h.name, h.location, h.total_rooms, h.available_rooms - 1⟩

/-- The in-place increment `hotel_data[hid]["available_rooms"] += 1`. -/
def incRooms (h : HotelRec) : HotelRec :=
  ⟨h.name, h.location, h.total_rooms, h.available_rooms + 1⟩

/-- Embeds `Reservation.create_reservation(res_id, customer_id, hotel_id)`:
fails on a duplicate reservation id, then on a missing hotel, then on
`available_rooms` not exceeding 0; otherwise decrements the hotel's
`available_rooms` by 1 and inserts the reservation record.  The customer
collection is never consulted. -/
def create_reservation (res_id customer_id hotel_id : String)
    (s : SysState) : Bool × SysState :=
  if hasKey res_id s.reservations then (false, s)
  else
    match lookupKey hotel_id s.hotels with
    | none => (false, s)
    | some h =>
      if 0 < h.available_rooms then
        (true,
          ⟨updateKey hotel_id decRooms s.hotels,
            s.customers,
            setKey res_id ⟨customer_id, hotel_id⟩ s.reservations⟩)
      else (false, s)

/-- Embeds `Reservation.cancel_reservation(res_id)`: fails when the id is absent;
otherwise increments the referenced hotel's `available_rooms` by 1 when that
hotel still exists (silently skipping the increment otherwise) and removes
the reservation. -/
def cancel_reservation (res_id : String) (s : SysState) : Bool × SysState :=
  match lookupKey res_id s.reservations with
  | none => (false, s)
  | some r =>
    (true,
      ⟨if hasKey r.hotel_id s.hotels then
          updateKey r.hotel_id incRooms s.hotels
        else s.hotels,
        s.customers,
        eraseKey res_id s.reservations⟩)

/-- One public operation of the system, with its arguments. -/
inductive Op where
  | createHotel (hotel_id nm loc : String) (rooms : Nat)
  | deleteHotel (hotel_id : String)
  | modifyHotel (hotel_id : String) (nm loc : Option String)
  | createCustomer (customer_id nm em : String)
  | deleteCustomer (customer_id : String)
  | modifyCustomer (customer_id : String) (nm em : Option String)
  | createReservation (res_id customer_id hotel_id : String)
  | cancelReservation (res_id : String)
deriving DecidableEq, Repr

/-- Execute one public operation on a state. -/
def step (op : Op) (s : SysState) : Bool × SysState :=
  match op with
  | .createHotel hid nm loc rooms => create_hotel hid nm loc rooms s
  | .deleteHotel hid => delete_hotel hid s
  | .modifyHotel hid nm loc => modify_hotel hid nm loc s
  | .createCustomer cid nm em => create_customer cid nm em s
  | .deleteCustomer cid => delete_customer cid s
  | .modifyCustomer cid nm em => modify_customer cid nm em s
  | .createReservation rid cid hid => create_reservation rid cid hid s
  | .cancelReservation rid => cancel_reservation rid s

/-- Execute a sequence of public operations. -/
def runOps : List Op → SysState → SysState
  | [], s => s
  | op :: rest, s => runOps rest (step op s).2

/-- The state on first use of the store: all three snapshot files absent,
so every collection loads as empty. -/
def initState : SysState := ⟨[], [], []⟩

/-- Number of reservations in a ledger that reference the given hotel id. -/
def countHotel (hid : String) (res : Coll ReservationRec) : Nat :=
  res.countP (fun p => if p.2.hotel_id = hid then true else false)

/-- An operation is legal when it does not delete a hotel that still has
active reservations (the side condition of the spec's invariant). -/
def legalOp (op : Op) (s : SysState) : Bool :=
  match op with
  | .deleteHotel hid => countHotel hid s.reservations == 0
  | _ => true

/-- A sequence of operations is legal from a state when each step is. -/
def legalRun : List Op → SysState → Bool
  | [], _ => true
  | op :: rest, s => legalOp op s && legalRun rest (step op s).2

/-- The spec's room-count invariant: every hotel's `available_rooms` equals
`total_rooms` minus the number of reservations referencing it. -/
def roomInv (s : SysState) : Prop :=
  ∀ hid h, lookupKey hid s.hotels = some h →
    h.available_rooms = h.total_rooms - (countHotel hid s.reservations : Int)

/-- Referential integrity: every reservation references an existing hotel. -/
def refsOk (s : SysState) : Prop :=
  ∀ rid r, lookupKey rid s.reservations = some r →
    hasKey r.hotel_id s.hotels = true

/-- Every hotel's `available_rooms` is non-negative. -/
def availNonneg (s : SysState) : Prop :=
  ∀ hid h, lookupKey hid s.hotels = some h → 0 ≤ h.available_rooms

/-- The reservation ledger has no duplicate keys (true of every JSON
object). -/
def resKeysNodup (s : SysState) : Prop :=
  (s.reservations.map Prod.fst).Nodup

/-- The combined inductive invariant maintained by the public operations. -/
def InvAll (s : SysState) : Prop :=
  resKeysNodup s ∧ refsOk s ∧ roomInv s ∧ availNonneg s

/-- Outcome of the raw file write attempted by `DataManager.save_data`:
either the write succeeds or the I/O layer raises an exception. -/
inductive WriteOutcome where
  | ok
  | err (msg : String)
deriving DecidableEq, Repr

/-- Embeds `DataManager.save_data(filename, data)`: attempts the write, catches any
exception and prints a diagnostic.  The first component is the value
returned to the caller — Python `None`, modelled as `Unit` — and the second
is the list of diagnostic messages printed. -/
def save_data (outcome : WriteOutcome) : Unit × List String :=
  match outcome with
  | .ok => ((), [])
  | .err e => ((), ["Unexpected error saving: " ++ e])

/-- Contents of a snapshot file as seen by `DataManager.load_data`: absent,
present but not valid JSON, unreadable (any other exception on open/read),
or parsed into a collection. -/
inductive FileContents (α : Type) where
  | absent
  | corrupt (raw : String)
  | unreadable (msg : String)
  | parsed (data : α)
deriving DecidableEq, Repr

/-- Embeds `DataManager.load_data(filename)`: returns the empty collection when the
file is missing, when its contents fail to parse as JSON (printing a
diagnostic), or when any other exception occurs (printing a diagnostic);
returns the parsed collection otherwise.  First component: the collection
returned to the caller; second: the diagnostic messages printed. -/
def load_data {α : Type} (f : FileContents (Coll α)) :
    Coll α × List String :=
  match f with
  | .absent => ([], [])
  | .corrupt _ => ([], ["Invalid JSON. Returning empty."])
  | .unreadable e => ([], ["Unexpected error loading: " ++ e])
  | .parsed d => (d, [])

/-! ### Association-list lemmas -/

theorem lookupKey_nil {α : Type} (k : String) :
    lookupKey k ([] : Coll α) = none := rfl

theorem lookupKey_cons {α : Type} (k : String) (p : String × α)
    (c : Coll α) :
    lookupKey k (p :: c) =
      if p.1 = k then some p.2 else lookupKey k c := rfl

theorem updateKey_cons {α : Type} (k : String) (f : α → α)
    (p : String × α) (c : Coll α) :
    updateKey k f (p :: c) =
      (if p.1 = k then (p.1, f p.2) else p) :: updateKey k f c := by
  by_cases hp : p.1 = k <;> simp [updateKey, hp]

theorem eraseKey_cons {α : Type} (k : String) (p : String × α)
    (c : Coll α) :
    eraseKey k (p :: c) =
      if p.1 = k then eraseKey k c else p :: eraseKey k c := by
  by_cases hp : p.1 = k
  · rw [if_pos hp]
    rw [eraseKey, eraseKey, List.filter_cons, if_neg]
    simp [hp]
  · rw [if_neg hp]
    rw [eraseKey, eraseKey, List.filter_cons, if_pos]
    simp [hp]

theorem lookupKey_append {α : Type} (k : String) (c d : Coll α) :
    lookupKey k (c ++ d) =
      match lookupKey k c with
      | some v => some v
      | none => lookupKey k d := by
  induction c with
  | nil => simp [lookupKey]
  | cons p rest ih =>
    by_cases hp : p.1 = k
    · simp [lookupKey_cons, hp]
    · simpa [lookupKey_cons, hp] using ih

theorem lookupKey_append_of_none {α : Type} {k : String} {c : Coll α}
    (d : Coll α) (hc : lookupKey k c = none) :
    lookupKey k (c ++ d) = lookupKey k d := by
  rw [lookupKey_append, hc]

theorem lookupKey_updateKey_self {α : Type} (k : String) (f : α → α)
    (c : Coll α) :
    lookupKey k (updateKey k f c) = (lookupKey k c).map f := by
  induction c with
  | nil => simp [lookupKey, updateKey]
  | cons p rest ih =>
    rw [updateKey_cons]
    by_cases hp : p.1 = k
    · rw [if_pos hp, lookupKey_cons, lookupKey_cons, if_pos hp, if_pos hp]
      simp
    · rw [if_neg hp, lookupKey_cons, lookupKey_cons, if_neg hp, if_neg hp,
        ih]

theorem lookupKey_updateKey_ne {α : Type} {k k' : String} (f : α → α)
    (c : Coll α) (hne : k' ≠ k) :
    lookupKey k' (updateKey k f c) = lookupKey k' c := by
  induction c with
  | nil => simp [lookupKey, updateKey]
  | cons p rest ih =>
    rw [updateKey_cons]
    by_cases hp : p.1 = k
    · have hp' : ¬ p.1 = k' := by
        intro hx
        rw [hp] at hx
        exact hne hx.symm
      rw [if_pos hp, lookupKey_cons, lookupKey_cons]
      simp [hp', ih]
    · rw [if_neg hp, lookupKey_cons, lookupKey_cons]
      by_cases hq : p.1 = k'
      · rw [if_pos hq, if_pos hq]
      · rw [if_neg hq, if_neg hq, ih]

theorem hasKey_updateKey {α : Type} (k k' : String) (f : α → α)
    (c : Coll α) :
    hasKey k' (updateKey k f c) = hasKey k' c := by
  by_cases hne : k' = k
  · subst hne
    rw [hasKey, hasKey, lookupKey_updateKey_self]
    cases lookupKey k' c <;> rfl
  · rw [hasKey, hasKey, lookupKey_updateKey_ne f c hne]

theorem lookupKey_eraseKey_self {α : Type} (k : String) (c : Coll α) :
    lookupKey k (eraseKey k c) = none := by
  induction c with
  | nil => simp [lookupKey, eraseKey]
  | cons p rest ih =>
    rw [eraseKey_cons]
    by_cases hp : p.1 = k
    · rw [if_pos hp]
      exact ih
    · rw [if_neg hp, lookupKey_cons, if_neg hp]
      exact ih

theorem lookupKey_eraseKey_ne {α : Type} {k k' : String} (c : Coll α)
    (hne : k' ≠ k) :
    lookupKey k' (eraseKey k c) = lookupKey k' c := by
  induction c with
  | nil => simp [lookupKey, eraseKey]
  | cons p rest ih =>
    rw [eraseKey_cons]
    by_cases hp : p.1 = k
    · have hp' : ¬ p.1 = k' := by
        intro hx
        rw [hp] at hx
        exact hne hx.symm
      rw [if_pos hp, lookupKey_cons, if_neg hp', ih]
    · rw [if_neg hp, lookupKey_cons, lookupKey_cons]
      by_cases hq : p.1 = k'
      · rw [if_pos hq, if_pos hq]
      · rw [if_neg hq, if_neg hq, ih]

theorem eraseKey_of_hasKey_false {α : Type} {k : String} {c : Coll α}
    (h : hasKey k c = false) : eraseKey k c = c := by
  induction c with
  | nil => simp [eraseKey]
  | cons p rest ih =>
    by_cases hp : p.1 = k
    · exfalso
      rw [hasKey, lookupKey_cons, if_pos hp] at h
      simp at h
    · have hrest : hasKey k rest = false := by
        rw [hasKey, lookupKey_cons, if_neg hp] at h
        exact h
      rw [eraseKey_cons, if_neg hp, ih hrest]

theorem mem_of_lookupKey {α : Type} {k : String} {v : α} {c : Coll α}
    (h : lookupKey k c = some v) : (k, v) ∈ c := by
  induction c with
  | nil => simp [lookupKey] at h
  | cons p rest ih =>
    rcases p with ⟨pk, pv⟩
    by_cases hp : pk = k
    · rw [lookupKey_cons, if_pos hp] at h
      have hv : pv = v := Option.some.inj h
      subst hp
      subst hv
      exact List.mem_cons_self _ _
    · rw [lookupKey_cons, if_neg hp] at h
      exact List.mem_cons_of_mem _ (ih h)

theorem lookupKey_of_mem_nodup {α : Type} {k : String} {v : α} {c : Coll α}
    (hnd : (c.map Prod.fst).Nodup) (hmem : (k, v) ∈ c) :
    lookupKey k c = some v := by
  induction c with
  | nil => simp at hmem
  | cons p rest ih =>
    rcases List.mem_cons.mp hmem with hv | hv
    · rw [← hv]
      simp [lookupKey_cons]
    · have hk : k ∈ rest.map Prod.fst :=
        List.mem_map.mpr ⟨(k, v), hv, rfl⟩
      have hp : ¬ p.1 = k := by
        intro hx
        have hhead := (List.nodup_cons.mp hnd).1
        rw [hx] at hhead
        exact hhead hk
      have hnd' := (List.nodup_cons.mp hnd).2
      rw [lookupKey_cons, if_neg hp]
      exact ih hnd' hv

theorem map_fst_updateKey {α : Type} (k : String) (f : α → α) (c : Coll α) :
    (updateKey k f c).map Prod.fst = c.map Prod.fst := by
  induction c with
  | nil => rfl
  | cons p rest ih =>
    rw [updateKey_cons]
    by_cases hp : p.1 = k
    · rw [if_pos hp, List.map_cons, List.map_cons, ih]
    · rw [if_neg hp, List.map_cons, List.map_cons, ih]

theorem nodup_map_fst_eraseKey {α : Type} (k : String) (c : Coll α)
    (hnd : (c.map Prod.fst).Nodup) :
    ((eraseKey k c).map Prod.fst).Nodup := by
  have hsub : List.Sublist (eraseKey k c) c := List.filter_sublist c
  exact (hsub.map Prod.fst).nodup hnd

theorem nodup_map_fst_append_fresh {α : Type} {k : String} {c : Coll α}
    (v : α) (hnd : (c.map Prod.fst).Nodup) (habs : lookupKey k c = none) :
    ((c ++ [(k, v)]).map Prod.fst).Nodup := by
  rw [List.map_append]
  refine List.Nodup.append hnd (by simp) ?_
  intro a ha hb
  simp only [List.map_cons, List.map_nil, List.mem_singleton] at hb
  have hk : k ∈ c.map Prod.fst := hb ▸ ha
  rcases List.mem_map.mp hk with ⟨p, hp, hfst⟩
  rcases p with ⟨pk, pv⟩
  have hpk : pk = k := hfst
  subst hpk
  have hsome : lookupKey pk c = some pv := lookupKey_of_mem_nodup hnd hp
  rw [habs] at hsome
  exact Option.noConfusion hsome

theorem countHotel_append (hid : String) (res res' : Coll ReservationRec) :
    countHotel hid (res ++ res') =
      countHotel hid res + countHotel hid res' := by
  simp [countHotel, List.countP_append]

theorem countHotel_cons (hid : String) (p : String × ReservationRec)
    (res : Coll ReservationRec) :
    countHotel hid (p :: res) =
      countHotel hid res + (if p.2.hotel_id = hid then 1 else 0) := by
  by_cases hh : p.2.hotel_id = hid
  · simp [countHotel, List.countP_cons, hh]
  · simp [countHotel, List.countP_cons, hh]

theorem countHotel_eq_zero_of_forall {hid : String}
    {res : Coll ReservationRec}
    (h : ∀ p ∈ res, p.2.hotel_id ≠ hid) : countHotel hid res = 0 := by
  rw [countHotel, List.countP_eq_zero]
  intro p hp
  simp [h p hp]

theorem countHotel_pos_of_mem {hid : String} {p : String × ReservationRec}
    {res : Coll ReservationRec} (hmem : p ∈ res)
    (hp : p.2.hotel_id = hid) : 0 < countHotel hid res := by
  rw [countHotel, List.countP_pos_iff]
  exact ⟨p, hmem, by simp [hp]⟩

theorem countHotel_eraseKey {rid hid : String} {r : ReservationRec}
    {res : Coll ReservationRec} (hnd : (res.map Prod.fst).Nodup)
    (hl : lookupKey rid res = some r) :
    countHotel hid res =
      countHotel hid (eraseKey rid res) +
        (if r.hotel_id = hid then 1 else 0) := by
  induction res with
  | nil => simp [lookupKey] at hl
  | cons p rest ih =>
    have hnd' := (List.nodup_cons.mp hnd).2
    by_cases hp : p.1 = rid
    · have hv : p.2 = r := by
        rw [lookupKey_cons, if_pos hp] at hl
        exact Option.some.inj hl
      have habs : hasKey rid rest = false := by
        by_cases hcase : hasKey rid rest = true
        · exfalso
          rcases Option.isSome_iff_exists.mp hcase with ⟨w, hw⟩
          have hmem := mem_of_lookupKey hw
          have hin : rid ∈ rest.map Prod.fst :=
            List.mem_map.mpr ⟨(rid, w), hmem, rfl⟩
          have hhead := (List.nodup_cons.mp hnd).1
          rw [hp] at hhead
          exact hhead hin
        · exact Bool.eq_false_iff.mpr fun hx => hcase hx
      rw [eraseKey_cons, if_pos hp, eraseKey_of_hasKey_false habs,
        countHotel_cons, hv]
    · have hl' : lookupKey rid rest = some r := by
        rw [lookupKey_cons, if_neg hp] at hl
        exact hl
      rw [eraseKey_cons, if_neg hp, countHotel_cons, countHotel_cons,
        ih hnd' hl']
      omega

theorem lookupKey_eq_none_of_hasKey_false {α : Type} {k : String}
    {c : Coll α} (h : hasKey k c = false) : lookupKey k c = none := by
  cases hl : lookupKey k c with
  | none => rfl
  | some v =>
    rw [hasKey, hl] at h
    simp at h

theorem setKey_of_hasKey_false {α : Type} {k : String} {c : Coll α} (v : α)
    (h : hasKey k c = false) : setKey k v c = c ++ [(k, v)] := by
  simp [setKey, h]

theorem hasKey_append_left {α : Type} {k : String} {c : Coll α}
    (d : Coll α) (h : hasKey k c = true) : hasKey k (c ++ d) = true := by
  rcases Option.isSome_iff_exists.mp h with ⟨v, hv⟩
  rw [hasKey, lookupKey_append, hv]
  rfl

/-! ### Case equations for the reservation operations -/

theorem create_reservation_dup {rid : String} (cid hid : String)
    {s : SysState} (h : hasKey rid s.reservations = true) :
    create_reservation rid cid hid s = (false, s) := by
  simp [create_reservation, h]

theorem create_reservation_no_hotel {rid hid : String} (cid : String)
    {s : SysState} (hf : hasKey rid s.reservations = false)
    (hh : lookupKey hid s.hotels = none) :
    create_reservation rid cid hid s = (false, s) := by
  simp [create_reservation, hf, hh]

theorem create_reservation_no_rooms {rid hid : String} (cid : String)
    {s : SysState} {h : HotelRec} (hf : hasKey rid s.reservations = false)
    (hh : lookupKey hid s.hotels = some h)
    (hz : ¬ 0 < h.available_rooms) :
    create_reservation rid cid hid s = (false, s) := by
  simp [create_reservation, hf, hh, hz]

theorem create_reservation_success {rid hid : String} (cid : String)
    {s : SysState} {h : HotelRec} (hf : hasKey rid s.reservations = false)
    (hh : lookupKey hid s.hotels = some h)
    (hpos : 0 < h.available_rooms) :
    create_reservation rid cid hid s =
      (true,
        ⟨updateKey hid decRooms s.hotels, s.customers,
          setKey rid ⟨cid, hid⟩ s.reservations⟩) := by
  simp [create_reservation, hf, hh, hpos]

theorem cancel_reservation_none {rid : String} {s : SysState}
    (h : lookupKey rid s.reservations = none) :
    cancel_reservation rid s = (false, s) := by
  simp [cancel_reservation, h]

theorem cancel_reservation_some {rid : String} {s : SysState}
    {r : ReservationRec} (h : lookupKey rid s.reservations = some r) :
    cancel_reservation rid s =
      (true,
        ⟨if hasKey r.hotel_id s.hotels then
            updateKey r.hotel_id incRooms s.hotels
          else s.hotels,
          s.customers, eraseKey rid s.reservations⟩) := by
  simp only [cancel_reservation, h]

/-! ### Preservation of the combined invariant by each public operation -/

theorem invAll_congr {s s' : SysState} (hh : s'.hotels = s.hotels)
    (hr : s'.reservations = s.reservations) (hInv : InvAll s) : InvAll s' := by
  rcases hInv with ⟨h1, h2, h3, h4⟩
  refine ⟨?_, ?_, ?_, ?_⟩
  · rw [resKeysNodup, hr]
    exact h1
  · intro rid r hl
    rw [hr] at hl
    rw [hh]
    exact h2 rid r hl
  · intro hid h hl
    rw [hh] at hl
    rw [hr]
    exact h3 hid h hl
  · intro hid h hl
    rw [hh] at hl
    exact h4 hid h hl

theorem create_customer_frame (cid nm em : String) (s : SysState) :
    ((create_customer cid nm em s).2).hotels = s.hotels ∧
      ((create_customer cid nm em s).2).reservations = s.reservations := by
  simp only [create_customer]
  split <;> exact ⟨rfl, rfl⟩

theorem delete_customer_frame (cid : String) (s : SysState) :
    ((delete_customer cid s).2).hotels = s.hotels ∧
      ((delete_customer cid s).2).reservations = s.reservations := by
  simp only [delete_customer]
  split <;> exact ⟨rfl, rfl⟩

theorem modify_customer_frame (cid : String) (nm em : Option String)
    (s : SysState) :
    ((modify_customer cid nm em s).2).hotels = s.hotels ∧
      ((modify_customer cid nm em s).2).reservations = s.reservations := by
  simp only [modify_customer]
  split <;> exact ⟨rfl, rfl⟩

theorem invAll_create_hotel (hid nm loc : String) (rooms : Nat)
    {s : SysState} (hInv : InvAll s) :
    InvAll ((create_hotel hid nm loc rooms s).2) := by
  rcases hInv with ⟨h1, h2, h3, h4⟩
  simp only [create_hotel]
  split
  · exact ⟨h1, h2, h3, h4⟩
  · rename_i hcond
    have habs : hasKey hid s.hotels = false :=
      Bool.eq_false_iff.mpr fun hx => hcond hx
    rw [setKey_of_hasKey_false _ habs]
    have hnone : lookupKey hid s.hotels = none :=
      lookupKey_eq_none_of_hasKey_false habs
    refine ⟨h1, ?_, ?_, ?_⟩
    · intro rid r hl
      exact hasKey_append_left _ (h2 rid r hl)
    · intro hid' h' hl'
      rw [lookupKey_append] at hl'
      cases hc : lookupKey hid' s.hotels with
      | some h0 =>
        rw [hc] at hl'
        cases hl'
        exact h3 hid' h' hc
      | none =>
        rw [hc, lookupKey_cons] at hl'
        by_cases heq : hid = hid'
        · rw [if_pos heq] at hl'
          cases hl'
          have hz : countHotel hid' s.reservations = 0 := by
            apply countHotel_eq_zero_of_forall
            intro p hp hph
            have hlp : lookupKey p.1 s.reservations = some p.2 :=
              lookupKey_of_mem_nodup h1 (by rw [Prod.mk.eta]; exact hp)
            have hhk := h2 p.1 p.2 hlp
            rw [hph] at hhk
            rw [hasKey, hc] at hhk
            simp at hhk
          rw [hz]
          simp
        · rw [if_neg heq, lookupKey_nil] at hl'
          exact Option.noConfusion hl'
    · intro hid' h' hl'
      rw [lookupKey_append] at hl'
      cases hc : lookupKey hid' s.hotels with
      | some h0 =>
        rw [hc] at hl'
        cases hl'
        exact h4 hid' h' hc
      | none =>
        rw [hc, lookupKey_cons] at hl'
        by_cases heq : hid = hid'
        · rw [if_pos heq] at hl'
          cases hl'
          exact Int.ofNat_nonneg rooms
        · rw [if_neg heq, lookupKey_nil] at hl'
          exact Option.noConfusion hl'

theorem invAll_delete_hotel (hid : String) {s : SysState} (hInv : InvAll s)
    (hleg : countHotel hid s.reservations = 0) :
    InvAll ((delete_hotel hid s).2) := by
  rcases hInv with ⟨h1, h2, h3, h4⟩
  simp only [delete_hotel]
  split
  · refine ⟨h1, ?_, ?_, ?_⟩
    · intro rid r hl
      have hold := h2 rid r hl
      by_cases heq : r.hotel_id = hid
      · exfalso
        have hpos : 0 < countHotel hid s.reservations :=
          countHotel_pos_of_mem (mem_of_lookupKey hl) heq
        omega
      · rw [hasKey, lookupKey_eraseKey_ne _ heq]
        exact hold
    · intro hid' h' hl'
      by_cases heq : hid' = hid
      · rw [heq, lookupKey_eraseKey_self] at hl'
        exact Option.noConfusion hl'
      · rw [lookupKey_eraseKey_ne _ heq] at hl'
        exact h3 hid' h' hl'
    · intro hid' h' hl'
      by_cases heq : hid' = hid
      · rw [heq, lookupKey_eraseKey_self] at hl'
        exact Option.noConfusion hl'
      · rw [lookupKey_eraseKey_ne _ heq] at hl'
        exact h4 hid' h' hl'
  · exact ⟨h1, h2, h3, h4⟩

theorem invAll_modify_hotel (hid : String) (nm loc : Option String)
    {s : SysState} (hInv : InvAll s) :
    InvAll ((modify_hotel hid nm loc s).2) := by
  rcases hInv with ⟨h1, h2, h3, h4⟩
  simp only [modify_hotel]
  split
  · refine ⟨h1, ?_, ?_, ?_⟩
    · intro rid r hl
      rw [hasKey_updateKey]
      exact h2 rid r hl
    · intro hid' h' hl'
      by_cases heq : hid' = hid
      · subst heq
        rw [lookupKey_updateKey_self] at hl'
        cases hc : lookupKey hid' s.hotels with
        | none =>
          rw [hc] at hl'
          exact Option.noConfusion hl'
        | some h0 =>
          rw [hc] at hl'
          cases hl'
          exact h3 hid' h0 hc
      · rw [lookupKey_updateKey_ne _ _ heq] at hl'
        exact h3 hid' h' hl'
    · intro hid' h' hl'
      by_cases heq : hid' = hid
      · subst heq
        rw [lookupKey_updateKey_self] at hl'
        cases hc : lookupKey hid' s.hotels with
        | none =>
          rw [hc] at hl'
          exact Option.noConfusion hl'
        | some h0 =>
          rw [hc] at hl'
          cases hl'
          exact h4 hid' h0 hc
      · rw [lookupKey_updateKey_ne _ _ heq] at hl'
        exact h4 hid' h' hl'
  · exact ⟨h1, h2, h3, h4⟩

theorem invAll_create_reservation (rid cid hid : String) {s : SysState}
    (hInv : InvAll s) : InvAll ((create_reservation rid cid hid s).2) := by
  rcases hInv with ⟨h1, h2, h3, h4⟩
  cases hfr : hasKey rid s.reservations with
  | true => rw [create_reservation_dup cid hid hfr]; exact ⟨h1, h2, h3, h4⟩
  | false =>
    have hnone : lookupKey rid s.reservations = none :=
      lookupKey_eq_none_of_hasKey_false hfr
    cases hc : lookupKey hid s.hotels with
    | none =>
      rw [create_reservation_no_hotel cid hfr hc]
      exact ⟨h1, h2, h3, h4⟩
    | some h =>
      by_cases hpos : 0 < h.available_rooms
      · rw [create_reservation_success cid hfr hc hpos,
          setKey_of_hasKey_false _ hfr]
        refine ⟨nodup_map_fst_append_fresh _ h1 hnone, ?_, ?_, ?_⟩
        · intro rid' r' hl'
          rw [lookupKey_append] at hl'
          rw [hasKey_updateKey]
          cases hcr : lookupKey rid' s.reservations with
          | some r0 =>
            rw [hcr] at hl'
            cases hl'
            exact h2 rid' r' hcr
          | none =>
            rw [hcr, lookupKey_cons] at hl'
            by_cases heq : rid = rid'
            · rw [if_pos heq] at hl'
              cases hl'
              rw [hasKey, hc]
              rfl
            · rw [if_neg heq, lookupKey_nil] at hl'
              exact Option.noConfusion hl'
        · intro hid' h' hl'
          by_cases heq : hid' = hid
          · subst heq
            rw [lookupKey_updateKey_self, hc] at hl'
            cases hl'
            have hcount : countHotel hid'
                (s.reservations ++ [(rid, ⟨cid, hid'⟩)]) =
                countHotel hid' s.reservations + 1 := by
              rw [countHotel_append, countHotel_cons]
              simp [countHotel]
            rw [hcount]
            have hbase := h3 hid' h hc
            simp only [decRooms]
            push_cast
            push_cast at hbase
            omega
          · rw [lookupKey_updateKey_ne _ _ heq] at hl'
            have hbase := h3 hid' h' hl'
            have hcount : countHotel hid'
                (s.reservations ++ [(rid, ⟨cid, hid⟩)]) =
                countHotel hid' s.reservations := by
              rw [countHotel_append, countHotel_cons]
              have hne : ¬ (⟨cid, hid⟩ : ReservationRec).hotel_id = hid' :=
                fun hx => heq hx.symm
              simp [countHotel, hne]
            rw [hcount]
            exact hbase
        · intro hid' h' hl'
          by_cases heq : hid' = hid
          · subst heq
            rw [lookupKey_updateKey_self, hc] at hl'
            cases hl'
            simp only [decRooms]
            omega
          · rw [lookupKey_updateKey_ne _ _ heq] at hl'
            exact h4 hid' h' hl'
      · rw [create_reservation_no_rooms cid hfr hc hpos]
        exact ⟨h1, h2, h3, h4⟩

theorem invAll_cancel_reservation (rid : String) {s : SysState}
    (hInv : InvAll s) : InvAll ((cancel_reservation rid s).2) := by
  rcases hInv with ⟨h1, h2, h3, h4⟩
  cases hcr : lookupKey rid s.reservations with
  | none => rw [cancel_reservation_none hcr]; exact ⟨h1, h2, h3, h4⟩
  | some r =>
    have hhk : hasKey r.hotel_id s.hotels = true := h2 rid r hcr
    rw [cancel_reservation_some hcr, if_pos hhk]
    refine ⟨nodup_map_fst_eraseKey _ _ h1, ?_, ?_, ?_⟩
    · intro rid' r' hl'
      by_cases heq : rid' = rid
      · rw [heq, lookupKey_eraseKey_self] at hl'
        exact Option.noConfusion hl'
      · rw [lookupKey_eraseKey_ne _ heq] at hl'
        rw [hasKey_updateKey]
        exact h2 rid' r' hl'
    · intro hid' h' hl'
      have hsplit := @countHotel_eraseKey rid hid' r s.reservations h1 hcr
      by_cases heq : hid' = r.hotel_id
      · subst heq
        rw [lookupKey_updateKey_self] at hl'
        cases hc : lookupKey r.hotel_id s.hotels with
        | none =>
          rw [hc] at hl'
          exact Option.noConfusion hl'
        | some h0 =>
          rw [hc] at hl'
          cases hl'
          have hbase := h3 r.hotel_id h0 hc
          rw [if_pos rfl] at hsplit
          simp only [incRooms]
          omega
      · have heq' : ¬ r.hotel_id = hid' := fun hx => heq hx.symm
        rw [lookupKey_updateKey_ne _ _ heq] at hl'
        have hbase := h3 hid' h' hl'
        rw [if_neg heq'] at hsplit
        simp only []
        omega
    · intro hid' h' hl'
      by_cases heq : hid' = r.hotel_id
      · subst heq
        rw [lookupKey_updateKey_self] at hl'
        cases hc : lookupKey r.hotel_id s.hotels with
        | none =>
          rw [hc] at hl'
          exact Option.noConfusion hl'
        | some h0 =>
          rw [hc] at hl'
          cases hl'
          have hbase := h4 r.hotel_id h0 hc
          simp only [incRooms]
          omega
      · rw [lookupKey_updateKey_ne _ _ heq] at hl'
        exact h4 hid' h' hl'

theorem invAll_step {s : SysState} (op : Op) (hInv : InvAll s)
    (hleg : legalOp op s = true) : InvAll (step op s).2 := by
  cases op with
  | createHotel hid nm loc rooms => exact invAll_create_hotel hid nm loc rooms hInv
  | deleteHotel hid =>
    have hz : countHotel hid s.reservations = 0 := by
      rw [legalOp] at hleg
      simpa using hleg
    exact invAll_delete_hotel hid hInv hz
  | modifyHotel hid nm loc => exact invAll_modify_hotel hid nm loc hInv
  | createCustomer cid nm em =>
    exact invAll_congr (create_customer_frame cid nm em s).1
      (create_customer_frame cid nm em s).2 hInv
  | deleteCustomer cid =>
    exact invAll_congr (delete_customer_frame cid s).1
      (delete_customer_frame cid s).2 hInv
  | modifyCustomer cid nm em =>
    exact invAll_congr (modify_customer_frame cid nm em s).1
      (modify_customer_frame cid nm em s).2 hInv
  | createReservation rid cid hid =>
    exact invAll_create_reservation rid cid hid hInv
  | cancelReservation rid => exact invAll_cancel_reservation rid hInv

theorem invAll_runOps {s : SysState} (ops : List Op) (hInv : InvAll s)
    (hleg : legalRun ops s = true) : InvAll (runOps ops s) := by
  induction ops generalizing s with
  | nil => exact hInv
  | cons op rest ih =>
    rw [legalRun, Bool.and_eq_true] at hleg
    exact ih (invAll_step op hInv hleg.1) hleg.2

theorem invAll_initState : InvAll initState := by
  refine ⟨List.nodup_nil, ?_, ?_, ?_⟩ <;>
    · intro a b hl
      exact Option.noConfusion hl

theorem lookupKey_append_self {α : Type} {k : String} {c : Coll α} (v : α)
    (h : lookupKey k c = none) : lookupKey k (c ++ [(k, v)]) = some v := by
  rw [lookupKey_append_of_none _ h, lookupKey_cons]
  simp

theorem truthy_getD_ne_empty {o : Option String} (d : String)
    (h : truthy o = true) : o.getD d ≠ "" := by
  cases o with
  | none => exact Bool.noConfusion h
  | some st =>
    by_cases hs : st = ""
    · rw [truthy, if_pos hs] at h
      exact Bool.noConfusion h
    · simpa using hs

theorem create_reservation_cases (rid cid hid : String) (s : SysState)
    (hfail : (create_reservation rid cid hid s).1 = false) :
    (create_reservation rid cid hid s).2 = s := by
  cases hfr : hasKey rid s.reservations with
  | true => rw [create_reservation_dup cid hid hfr]
  | false =>
    cases hc : lookupKey hid s.hotels with
    | none => rw [create_reservation_no_hotel cid hfr hc]
    | some h =>
      by_cases hpos : 0 < h.available_rooms
      · rw [create_reservation_success cid hfr hc hpos] at hfail
        exact Bool.noConfusion hfail
      · rw [create_reservation_no_rooms cid hfr hc hpos]

/-! ### The claims -/

/-- C1: after every completed public operation (hotel create/delete/modify,
customer create/delete/modify, reservation create/cancel) executed in a
state satisfying the system invariant — in particular, no reservation
references a nonexistent hotel — and subject to the side condition that a
hotel is never deleted while reservations still reference it, every hotel's
`available_rooms` equals `total_rooms` minus the number of reservations in
the ledger referencing that hotel. -/
theorem claim_C1_room_invariant (s : SysState) (op : Op)
    (hInv : InvAll s) (hleg : legalOp op s = true) :
    roomInv (step op s).2 :=
  (invAll_step op hInv hleg).2.2.1

/-- C1 witness: the invariant hypotheses hold in the initial (empty) state
and the room-count invariant holds after creating a hotel there. -/
theorem claim_C1_witness :
    InvAll initState ∧
      legalOp (Op.createHotel "H1" "Plaza" "NYC" 3) initState = true ∧
      roomInv (step (Op.createHotel "H1" "Plaza" "NYC" 3) initState).2 :=
  ⟨invAll_initState, rfl,
    claim_C1_room_invariant initState (Op.createHotel "H1" "Plaza" "NYC" 3)
      invAll_initState rfl⟩

/-- C2: reservation creation checks its failure conditions in order —
duplicate reservation id first (regardless of any other condition), then
missing hotel, then an exhausted room count — and stops at the first that
applies, returning failure with the state unchanged; otherwise it
decrements the hotel's `available_rooms` by exactly 1 and inserts
`{customer_id, hotel_id}` under `res_id` in the ledger, reporting
success.  (Persisting each snapshot is the state update itself in this
embedding.) -/
theorem claim_C2_create_order (s : SysState) (rid cid hid : String) :
    (hasKey rid s.reservations = true →
      create_reservation rid cid hid s = (false, s)) ∧
    (hasKey rid s.reservations = false →
      lookupKey hid s.hotels = none →
      create_reservation rid cid hid s = (false, s)) ∧
    (∀ h, hasKey rid s.reservations = false →
      lookupKey hid s.hotels = some h → h.available_rooms = 0 →
      create_reservation rid cid hid s = (false, s)) ∧
    (∀ h, hasKey rid s.reservations = false →
      lookupKey hid s.hotels = some h → 0 < h.available_rooms →
      create_reservation rid cid hid s =
        (true,
          ⟨updateKey hid decRooms s.hotels, s.customers,
            setKey rid ⟨cid, hid⟩ s.reservations⟩)) :=
  ⟨fun hdup => create_reservation_dup cid hid hdup,
    fun hf hh => create_reservation_no_hotel cid hf hh,
    fun h hf hh hz =>
      create_reservation_no_rooms cid hf hh (by omega),
    fun h hf hh hpos => create_reservation_success cid hf hh hpos⟩

/-- C2 witness: in a state with one hotel of 2 available rooms and an empty
ledger, creating a reservation succeeds, decrements the count to 1 and
stores the record. -/
theorem claim_C2_witness :
    create_reservation "R1" "C1" "H1"
        ⟨[("H1", ⟨"Plaza", "NYC", 3, 2⟩)], [], []⟩ =
      (true,
        ⟨updateKey "H1" decRooms [("H1", ⟨"Plaza", "NYC", 3, 2⟩)], [],
          setKey "R1" ⟨"C1", "H1"⟩ []⟩) :=
  (claim_C2_create_order ⟨[("H1", ⟨"Plaza", "NYC", 3, 2⟩)], [], []⟩
      "R1" "C1" "H1").2.2.2 ⟨"Plaza", "NYC", 3, 2⟩ (by decide) (by decide)
    (by decide)

/-- C3: whenever reservation creation fails — duplicate id, missing hotel,
or no available rooms — it returns a failure flag and leaves the whole
persisted state (hotels, customers and the reservation ledger) unchanged. -/
theorem claim_C3_failure_frame (s : SysState) (rid cid hid : String)
    (hfail : (create_reservation rid cid hid s).1 = false) :
    (create_reservation rid cid hid s).2 = s :=
  create_reservation_cases rid cid hid s hfail

/-- C3 witness: creating a reservation against a missing hotel in the empty
state fails and leaves the state unchanged. -/
theorem claim_C3_witness :
    (create_reservation "R1" "C1" "H1" initState).1 = false ∧
      (create_reservation "R1" "C1" "H1" initState).2 = initState :=
  ⟨by decide, claim_C3_failure_frame initState "R1" "C1" "H1" (by decide)⟩

/-- C4: cancellation fails exactly when the reservation id is absent from
the ledger; on success it removes the id from the ledger, increments the
referenced hotel's `available_rooms` by exactly 1 when that hotel still
exists, and silently skips the increment (leaving the hotel collection
untouched) when the hotel was deleted out-of-band — still reporting
success. -/
theorem claim_C4_cancel_spec (s : SysState) (rid : String) :
    ((cancel_reservation rid s).1 = false ↔
      lookupKey rid s.reservations = none) ∧
    (∀ r, lookupKey rid s.reservations = some r →
      (cancel_reservation rid s).1 = true ∧
      lookupKey rid (cancel_reservation rid s).2.reservations = none ∧
      (∀ h, lookupKey r.hotel_id s.hotels = some h →
        lookupKey r.hotel_id (cancel_reservation rid s).2.hotels =
          some (incRooms h)) ∧
      (hasKey r.hotel_id s.hotels = false →
        (cancel_reservation rid s).2.hotels = s.hotels)) := by
  cases hcr : lookupKey rid s.reservations with
  | none =>
    rw [cancel_reservation_none hcr]
    constructor
    · simp
    · intro r hl
      exact Option.noConfusion hl
  | some r0 =>
    rw [cancel_reservation_some hcr]
    constructor
    · constructor
      · intro hfalse
        exact Bool.noConfusion hfalse
      · intro hnone
        exact Option.noConfusion hnone
    · intro r hl
      have hr : r0 = r := Option.some.inj hl
      subst hr
      refine ⟨rfl, ?_, ?_, ?_⟩
      · simp only []
        exact lookupKey_eraseKey_self rid s.reservations
      · intro h hlh
        have hhk : hasKey r0.hotel_id s.hotels = true := by
          rw [hasKey, hlh]
          rfl
        simp only [hhk, if_true]
        rw [lookupKey_updateKey_self, hlh]
        rfl
      · intro hfalse
        simp only [hfalse]
        rfl

/-- C4 witness: cancelling the one reservation of a concrete state removes
it and restores the room count of the still-existing hotel. -/
theorem claim_C4_witness :
    (cancel_reservation "R1"
        ⟨[("H1", ⟨"Plaza", "NYC", 3, 1⟩)], [],
          [("R1", ⟨"C1", "H1"⟩)]⟩).1 = true ∧
      lookupKey "H1"
          (cancel_reservation "R1"
            ⟨[("H1", ⟨"Plaza", "NYC", 3, 1⟩)], [],
              [("R1", ⟨"C1", "H1"⟩)]⟩).2.hotels =
        some (incRooms ⟨"Plaza", "NYC", 3, 1⟩) := by
  have hc := (claim_C4_cancel_spec
      ⟨[("H1", ⟨"Plaza", "NYC", 3, 1⟩)], [], [("R1", ⟨"C1", "H1"⟩)]⟩
      "R1").2 ⟨"C1", "H1"⟩ (by decide)
  exact ⟨hc.1, hc.2.2.1 ⟨"Plaza", "NYC", 3, 1⟩ (by decide)⟩

/-- C5: round trip — if a reservation is successfully created against a
hotel and then cancelled (the hotel still existing, as it does immediately
after creation), the hotel's `available_rooms` returns to its value from
immediately before the creation. -/
theorem claim_C5_roundtrip (s : SysState) (rid cid hid : String)
    (h : HotelRec) (hsuc : (create_reservation rid cid hid s).1 = true)
    (hh : lookupKey hid s.hotels = some h) :
    lookupKey hid
        (cancel_reservation rid
          (create_reservation rid cid hid s).2).2.hotels =
        some (incRooms (decRooms h)) ∧
      (incRooms (decRooms h)).available_rooms = h.available_rooms := by
  cases hfr : hasKey rid s.reservations with
  | true =>
    rw [create_reservation_dup cid hid hfr] at hsuc
    exact Bool.noConfusion hsuc
  | false =>
    by_cases hpos : 0 < h.available_rooms
    · rw [create_reservation_success cid hfr hh hpos]
      have hnone : lookupKey rid s.reservations = none :=
        lookupKey_eq_none_of_hasKey_false hfr
      have hres : lookupKey rid
          (setKey rid (⟨cid, hid⟩ : ReservationRec) s.reservations) =
          some ⟨cid, hid⟩ := by
        rw [setKey_of_hasKey_false _ hfr]
        exact lookupKey_append_self _ hnone
      have hstep := cancel_reservation_some
        (s := ⟨updateKey hid decRooms s.hotels, s.customers,
          setKey rid ⟨cid, hid⟩ s.reservations⟩) hres
      rw [hstep]
      have hhk : hasKey hid (updateKey hid decRooms s.hotels) = true := by
        rw [hasKey_updateKey, hasKey, hh]
        rfl
      simp only [hhk, if_true]
      refine ⟨?_, ?_⟩
      · rw [lookupKey_updateKey_self, lookupKey_updateKey_self, hh]
        rfl
      · simp [incRooms, decRooms]
    · rw [create_reservation_no_rooms cid hfr hh hpos] at hsuc
      exact Bool.noConfusion hsuc

/-- C5 witness: a concrete create-then-cancel round trip on a hotel with 2
available rooms ends with 2 available rooms. -/
theorem claim_C5_witness :
    lookupKey "H1"
        (cancel_reservation "R1"
          (create_reservation "R1" "C1" "H1"
            ⟨[("H1", ⟨"Plaza", "NYC", 3, 2⟩)], [], []⟩).2).2.hotels =
        some (incRooms (decRooms ⟨"Plaza", "NYC", 3, 2⟩)) ∧
      (incRooms (decRooms (⟨"Plaza", "NYC", 3, 2⟩ : HotelRec))).available_rooms =
        (⟨"Plaza", "NYC", 3, 2⟩ : HotelRec).available_rooms :=
  claim_C5_roundtrip ⟨[("H1", ⟨"Plaza", "NYC", 3, 2⟩)], [], []⟩
    "R1" "C1" "H1" ⟨"Plaza", "NYC", 3, 2⟩ (by decide) (by decide)

/-- C6 counterexample: the claimed bound `available_rooms ≤ total_rooms`
fails after a sequence of public operations, with no hypothesis violated by
the inputs themselves: create a 1-room hotel, reserve it, delete the hotel
while the reservation is active (the code allows this), recreate the hotel,
then cancel the old reservation — the hotel ends with `available_rooms = 2`
but `total_rooms = 1`. -/
theorem claim_C6_counterexample :
    lookupKey "H1"
        (runOps
          [Op.createHotel "H1" "Plaza" "NYC" 1,
            Op.createReservation "R1" "C1" "H1",
            Op.deleteHotel "H1",
            Op.createHotel "H1" "Plaza" "NYC" 1,
            Op.cancelReservation "R1"]
          initState).hotels =
      some ⟨"Plaza", "NYC", 1, 2⟩ ∧
    ¬ ((⟨"Plaza", "NYC", 1, 2⟩ : HotelRec).available_rooms ≤
        (⟨"Plaza", "NYC", 1, 2⟩ : HotelRec).total_rooms) := by
  decide

/-- C6 as amended: starting from the empty store, after every sequence of
public operations in which no hotel is deleted while reservations still
reference it, every hotel record satisfies
`0 ≤ available_rooms ≤ total_rooms`.  (Without that side condition the
upper bound fails, per the counterexample.) -/
theorem claim_C6_bounds (ops : List Op)
    (hleg : legalRun ops initState = true) :
    ∀ hid h, lookupKey hid (runOps ops initState).hotels = some h →
      0 ≤ h.available_rooms ∧ h.available_rooms ≤ h.total_rooms := by
  have hInv := invAll_runOps ops invAll_initState hleg
  rcases hInv with ⟨h1, h2, h3, h4⟩
  intro hid h hl
  refine ⟨h4 hid h hl, ?_⟩
  have hb := h3 hid h hl
  have hcn : (0 : Int) ≤
      (countHotel hid (runOps ops initState).reservations : Int) :=
    Int.ofNat_nonneg _
  omega

/-- C6 witness: a concrete legal trace (create a 2-room hotel, reserve,
cancel) after which the bounds hold for the hotel. -/
theorem claim_C6_witness :
    0 ≤ (⟨"Plaza", "NYC", 2, 2⟩ : HotelRec).available_rooms ∧
      (⟨"Plaza", "NYC", 2, 2⟩ : HotelRec).available_rooms ≤
        (⟨"Plaza", "NYC", 2, 2⟩ : HotelRec).total_rooms :=
  claim_C6_bounds
    [Op.createHotel "H1" "Plaza" "NYC" 2,
      Op.createReservation "R1" "C1" "H1",
      Op.cancelReservation "R1"]
    (by decide) "H1" ⟨"Plaza", "NYC", 2, 2⟩ (by decide)

/-- C7 counterexample: the record store's save operation does not return a
success/failure result the caller could use — the value returned to the
caller (Python None, modelled as the first component) is identical after a
successful write and after a failed write, so the caller cannot distinguish
them by the result value, contrary to the claim. -/
theorem claim_C7_counterexample :
    (save_data WriteOutcome.ok).1 =
      (save_data (WriteOutcome.err "disk full")).1 := rfl

/-- C7 as amended: save catches every write failure (it never escapes as an
uncaught fault) and reports it only as a printed diagnostic; the value
returned to the caller is always the same `()` (Python None), and a
diagnostic is printed exactly when the write failed, so the return value
does not let the caller distinguish success from failure. -/
theorem claim_C7_save_reporting (o : WriteOutcome) :
    (save_data o).1 = () ∧
      ((save_data o).2 = [] ↔ o = WriteOutcome.ok) := by
  cases o with
  | ok => exact ⟨rfl, by simp [save_data]⟩
  | err e => exact ⟨rfl, by simp [save_data]⟩

/-- C7 witness: the amended statement evaluated at a successful write. -/
theorem claim_C7_witness :
    (save_data WriteOutcome.ok).1 = () ∧
      ((save_data WriteOutcome.ok).2 = [] ↔
        WriteOutcome.ok = WriteOutcome.ok) :=
  claim_C7_save_reporting WriteOutcome.ok

/-- C8: the record store's load operation returns the empty collection when
the snapshot file is absent, and returns the empty collection while
reporting the parse failure (a printed diagnostic, not a fatal error) when
the file exists but cannot be parsed; the unreadable-file case also yields
the empty collection.  The modelled operation is total, so no exception
escapes to the caller. -/
theorem claim_C8_load_empty (α : Type) (raw msg : String) :
    (load_data (FileContents.absent : FileContents (Coll α))).1 = [] ∧
      (load_data (FileContents.corrupt raw : FileContents (Coll α))).1 =
        [] ∧
      (load_data (FileContents.corrupt raw : FileContents (Coll α))).2 =
        ["Invalid JSON. Returning empty."] ∧
      (load_data (FileContents.unreadable msg : FileContents (Coll α))).1 =
        [] :=
  ⟨rfl, rfl, rfl, rfl⟩

/-- C8 witness: the statement evaluated at hotel collections with concrete
file contents. -/
theorem claim_C8_witness :
    (load_data (FileContents.absent : FileContents (Coll HotelRec))).1 =
        [] ∧
      (load_data
          (FileContents.corrupt "not json" :
            FileContents (Coll HotelRec))).1 = [] ∧
      (load_data
          (FileContents.corrupt "not json" :
            FileContents (Coll HotelRec))).2 =
        ["Invalid JSON. Returning empty."] ∧
      (load_data
          (FileContents.unreadable "permission denied" :
            FileContents (Coll HotelRec))).1 = [] :=
  claim_C8_load_empty HotelRec "not json" "permission denied"

/-- C9: reservation creation never consults the customer collection — its
result flag and its effect on the hotel and reservation collections are
identical for any two states agreeing on hotels and reservations (in
particular for a customer id present in one and absent from the other);
and whenever the id is fresh and the hotel exists with available rooms,
creation succeeds and stores the reservation referencing the given
customer id. -/
theorem claim_C9_customer_not_consulted :
    (∀ rid cid hid : String, ∀ s₁ s₂ : SysState,
      s₁.hotels = s₂.hotels → s₁.reservations = s₂.reservations →
      (create_reservation rid cid hid s₁).1 =
          (create_reservation rid cid hid s₂).1 ∧
        (create_reservation rid cid hid s₁).2.hotels =
          (create_reservation rid cid hid s₂).2.hotels ∧
        (create_reservation rid cid hid s₁).2.reservations =
          (create_reservation rid cid hid s₂).2.reservations) ∧
    (∀ rid cid hid : String, ∀ s : SysState, ∀ h : HotelRec,
      hasKey rid s.reservations = false →
      lookupKey hid s.hotels = some h → 0 < h.available_rooms →
      (create_reservation rid cid hid s).1 = true ∧
        lookupKey rid
            (create_reservation rid cid hid s).2.reservations =
          some ⟨cid, hid⟩) := by
  constructor
  · intro rid cid hid s₁ s₂ hh hr
    cases hfr : hasKey rid s₁.reservations with
    | true =>
      have hfr2 : hasKey rid s₂.reservations = true := by rw [← hr]; exact hfr
      rw [create_reservation_dup cid hid hfr,
        create_reservation_dup cid hid hfr2]
      exact ⟨rfl, hh, hr⟩
    | false =>
      have hfr2 : hasKey rid s₂.reservations = false := by
        rw [← hr]
        exact hfr
      cases hc : lookupKey hid s₁.hotels with
      | none =>
        have hc2 : lookupKey hid s₂.hotels = none := by rw [← hh]; exact hc
        rw [create_reservation_no_hotel cid hfr hc,
          create_reservation_no_hotel cid hfr2 hc2]
        exact ⟨rfl, hh, hr⟩
      | some h =>
        have hc2 : lookupKey hid s₂.hotels = some h := by
          rw [← hh]
          exact hc
        by_cases hpos : 0 < h.available_rooms
        · rw [create_reservation_success cid hfr hc hpos,
            create_reservation_success cid hfr2 hc2 hpos]
          exact ⟨rfl, by rw [hh], by rw [hr]⟩
        · rw [create_reservation_no_rooms cid hfr hc hpos,
            create_reservation_no_rooms cid hfr2 hc2 hpos]
          exact ⟨rfl, hh, hr⟩
  · intro rid cid hid s h hf hh hpos
    rw [create_reservation_success cid hf hh hpos]
    refine ⟨rfl, ?_⟩
    simp only []
    rw [setKey_of_hasKey_false _ hf]
    exact lookupKey_append_self _ (lookupKey_eq_none_of_hasKey_false hf)

/-- C9 witness: with the customer collection empty (customer C1 does not
exist), the concrete creation succeeds and stores the reservation
referencing C1. -/
theorem claim_C9_witness :
    (create_reservation "R1" "C1" "H1"
        ⟨[("H1", ⟨"Plaza", "NYC", 3, 2⟩)], [], []⟩).1 = true ∧
      lookupKey "R1"
          (create_reservation "R1" "C1" "H1"
            ⟨[("H1", ⟨"Plaza", "NYC", 3, 2⟩)], [], []⟩).2.reservations =
        some ⟨"C1", "H1"⟩ :=
  claim_C9_customer_not_consulted.2 "R1" "C1" "H1"
    ⟨[("H1", ⟨"Plaza", "NYC", 3, 2⟩)], [], []⟩ ⟨"Plaza", "NYC", 3, 2⟩
    (by decide) (by decide) (by decide)

/-- C10: for hotel and customer modification on an existing id, a falsy
argument (`None` or the empty string) leaves the corresponding stored
field unchanged — the update is guarded by truthiness — so no field can be
set to the empty string through modify (a stored empty field can only
predate the call), and the operation reports success regardless. -/
theorem claim_C10_falsy_modify :
    (∀ s : SysState, ∀ hid : String, ∀ nm loc : Option String,
      ∀ h : HotelRec, lookupKey hid s.hotels = some h →
      (modify_hotel hid nm loc s).1 = true ∧
      lookupKey hid (modify_hotel hid nm loc s).2.hotels =
        some ⟨if truthy nm then nm.getD h.name else h.name,
          if truthy loc then loc.getD h.location else h.location,
          h.total_rooms, h.available_rooms⟩ ∧
      (truthy nm = false →
        (if truthy nm then nm.getD h.name else h.name) = h.name) ∧
      (truthy loc = false →
        (if truthy loc then loc.getD h.location else h.location) =
          h.location) ∧
      ((if truthy nm then nm.getD h.name else h.name) = "" →
        h.name = "") ∧
      ((if truthy loc then loc.getD h.location else h.location) = "" →
        h.location = "")) ∧
    (∀ s : SysState, ∀ cid : String, ∀ nm em : Option String,
      ∀ c : CustomerRec, lookupKey cid s.customers = some c →
      (modify_customer cid nm em s).1 = true ∧
      lookupKey cid (modify_customer cid nm em s).2.customers =
        some ⟨if truthy nm then nm.getD c.name else c.name,
          if truthy em then em.getD c.email else c.email⟩ ∧
      (truthy nm = false →
        (if truthy nm then nm.getD c.name else c.name) = c.name) ∧
      (truthy em = false →
        (if truthy em then em.getD c.email else c.email) = c.email) ∧
      ((if truthy nm then nm.getD c.name else c.name) = "" →
        c.name = "") ∧
      ((if truthy em then em.getD c.email else c.email) = "" →
        c.email = "")) := by
  constructor
  · intro s hid nm loc h hl
    have hhk : hasKey hid s.hotels = true := by
      rw [hasKey, hl]
      rfl
    simp only [modify_hotel, hhk, if_true]
    refine ⟨trivial, ?_, ?_, ?_, ?_, ?_⟩
    · rw [lookupKey_updateKey_self, hl]
      rfl
    · intro hf
      rw [if_neg]
      simp [hf]
    · intro hf
      rw [if_neg]
      simp [hf]
    · intro hemp
      by_cases ht : truthy nm = true
      · rw [if_pos ht] at hemp
        exact absurd hemp (truthy_getD_ne_empty h.name ht)
      · rw [if_neg ht] at hemp
        exact hemp
    · intro hemp
      by_cases ht : truthy loc = true
      · rw [if_pos ht] at hemp
        exact absurd hemp (truthy_getD_ne_empty h.location ht)
      · rw [if_neg ht] at hemp
        exact hemp
  · intro s cid nm em c hl
    have hhk : hasKey cid s.customers = true := by
      rw [hasKey, hl]
      rfl
    simp only [modify_customer, hhk, if_true]
    refine ⟨trivial, ?_, ?_, ?_, ?_, ?_⟩
    · rw [lookupKey_updateKey_self, hl]
      rfl
    · intro hf
      rw [if_neg]
      simp [hf]
    · intro hf
      rw [if_neg]
      simp [hf]
    · intro hemp
      by_cases ht : truthy nm = true
      · rw [if_pos ht] at hemp
        exact absurd hemp (truthy_getD_ne_empty c.name ht)
      · rw [if_neg ht] at hemp
        exact hemp
    · intro hemp
      by_cases ht : truthy em = true
      · rw [if_pos ht] at hemp
        exact absurd hemp (truthy_getD_ne_empty c.email ht)
      · rw [if_neg ht] at hemp
        exact hemp

/-- C10 witness: modifying a concrete hotel with a `None` name and an empty
location succeeds and leaves both fields as they were. -/
theorem claim_C10_witness :
    (modify_hotel "H1" none (some "")
        ⟨[("H1", ⟨"Plaza", "NYC", 3, 2⟩)], [], []⟩).1 = true ∧
      lookupKey "H1"
          (modify_hotel "H1" none (some "")
            ⟨[("H1", ⟨"Plaza", "NYC", 3, 2⟩)], [], []⟩).2.hotels =
        some ⟨if truthy none then (none : Option String).getD "Plaza"
            else "Plaza",
          if truthy (some "") then (some "").getD "NYC" else "NYC",
          3, 2⟩ := by
  have hc := claim_C10_falsy_modify.1
    ⟨[("H1", ⟨"Plaza", "NYC", 3, 2⟩)], [], []⟩ "H1" none (some "")
    ⟨"Plaza", "NYC", 3, 2⟩ (by decide)
  exact ⟨hc.1, hc.2.1⟩

end ReservationSystem
